import Mathlib

/-!
Verification of the scraping-strategy orchestration layer of the
brain.com.ua product-parser repository.

The Python sources are shallowly embedded as executable Lean definitions:

* `core/exceptions.py`, `core/schemas.py`  → `PyExc`, `ProductData`
* `parser_app/services/base.py`            → `BaseBrainParser.parse`
* `parser_app/parsers/beautifulsoup/parser.py` → `beautifulSoupParseInner`
* `parser_app/parsers/playwright/parser.py`    → `playwrightWrapBody`
* `core/enums.py`, `parser_app/factory.py`     → `ParserType.from_string`, `get_parser`
* `parser_app/parsers/utils/cache.py`          → `get_cached_url`, `set_cached_url`
* `parser_app/parsers/config.py`               → `PRODUCT_URL_PATTERN_search`
* `parser_app/parsers/playwright/resolver.py`  → `pwResolveProductUrl`
* `parser_app/parsers/selenium/resolver.py`    → `seResolveProductUrl`
* `parser_app/parsers/playwright/runtime.py`   → `jobTimeoutSeconds`,
  `futureWait`, `RtStep` (lifecycle transition system)

Python exceptions become `Except PyExc`; the truthiness test `not x` on an
optional string becomes `truthy`; stateful page/driver automation becomes an
oracle environment recording the value each primitive page operation returns
at the point the source consults it.
-/

namespace Spec2Proof

/-- Python truthiness of an `Optional[str]` value: `None` and `""` are falsy. -/
def truthy : Option String → Bool
  | none => false
  | some s => s ≠ ""

/-- Exception taxonomy of `core/exceptions.py` plus the standard-library
exception kinds the orchestration layer raises or catches
(`ValueError`, `TimeoutError`, `ImportError`); `otherError` stands for any
further `Exception` subclass.  Each carries its message (`str(exc)`). -/
inductive PyExc where
  | configurationError (msg : String)
  | executionError (msg : String)
  | valueError (msg : String)
  | timeoutError (msg : String)
  | importError (msg : String)
  | otherError (msg : String)
deriving Repr, DecidableEq

/-- Python `str(exc)`: the message the exception was constructed with. -/
def PyExc.str : PyExc → String
  | .configurationError m => m
  | .executionError m => m
  | .valueError m => m
  | .timeoutError m => m
  | .importError m => m
  | .otherError m => m

/-- The Python class name of the exception, used by `repr(exc)`. -/
def PyExc.className : PyExc → String
  | .configurationError _ => "ParserConfigurationError"
  | .executionError _ => "ParserExecutionError"
  | .valueError _ => "ValueError"
  | .timeoutError _ => "TimeoutError"
  | .importError _ => "ImportError"
  | .otherError _ => "Exception"

/-- Python `repr(exc)` for an exception constructed from a single message. -/
def PyExc.reprStr (e : PyExc) : String :=
  e.className ++ "(\x27" ++ e.str ++ "\x27)"

/-- Python `str(e) or repr(e)` (parsers/playwright/parser.py line 87). -/
def PyExc.strOrRepr (e : PyExc) : String :=
  if e.str = "" then e.reprStr else e.str

/-- `ProductData` (core/schemas.py).  Only the fields the orchestration layer
itself consults are embedded (`product_code` for the post-parse validation,
`name` for logging, `source_url` for the record contract); the remaining
fields are data carried through unchanged by the code under study. -/
structure ProductData where
  name : String := ""
  product_code : String := ""
  source_url : String := ""
deriving Repr, DecidableEq

/-- Message of `ParserConfigurationError` in `BaseBrainParser.parse`. -/
def missingInputMsg : String :=
  "Either \x27query\x27 or \x27url\x27 must be provided."

/-- Message of `ParserExecutionError` for an empty product code. -/
def missingCodeMsg : String :=
  "Parsed product does not contain a product code."

/-- Outcome of one call to `BaseBrainParser.parse` together with whether the
inner strategy (`self._parse`) was invoked during the call. -/
structure ParseRun where
  result : Except PyExc ProductData
  innerInvoked : Bool
deriving Repr

/-- `BaseBrainParser.parse` (parser_app/services/base.py lines 15-32).
The abstract method `_parse` is passed in as `inner`; its outcome is either a
returned `ProductData` or a raised exception.  Lines 16-17 raise
`ParserConfigurationError` before `_parse` runs when both inputs are falsy;
lines 20-26 re-raise `ParserConfigurationError` unchanged and wrap any other
exception into `ParserExecutionError(str(exc))`; lines 28-29 raise
`ParserExecutionError` when the returned record has a falsy product code. -/
def BaseBrainParser.parse
    (inner : Option String → Option String → Except PyExc ProductData)
    (query url : Option String) : ParseRun :=
  if truthy query = false ∧ truthy url = false then
    ⟨.error (.configurationError missingInputMsg), false⟩
  else
    match inner query url with
    | .error (.configurationError m) => ⟨.error (.configurationError m), true⟩
    | .error e => ⟨.error (.executionError e.str), true⟩
    | .ok product =>
      if product.product_code = "" then
        ⟨.error (.executionError missingCodeMsg), true⟩
      else
        ⟨.ok product, true⟩

/-- Message of the `ParserExecutionError` raised by the BeautifulSoup
strategy when no URL was supplied. -/
def bsUrlRequiredMsg : String :=
  "\x27url\x27 is required when using the BeautifulSoup parser."

/-- `BeautifulSoupBrainParser._parse` (parsers/beautifulsoup/parser.py lines
11-15): a falsy `url` raises `ParserExecutionError`; otherwise the result is
that of `build_product_data`, supplied here as the oracle `fetch` since it
performs network I/O and field extraction outside the orchestration core. -/
def beautifulSoupParseInner (fetch : String → Except PyExc ProductData)
    (_query url : Option String) : Except PyExc ProductData :=
  if truthy url = false then
    .error (.executionError bsUrlRequiredMsg)
  else
    fetch (url.getD "")

/-- Message raised by the Playwright strategy when Playwright is missing. -/
def pwNotInstalledMsg : String :=
  "Playwright is not installed. Please install it with \x27pip install playwright\x27 and run \x27playwright install\x27"

/-- The exception-translation ladder of `PlaywrightBrainParser._parse`
(parsers/playwright/parser.py lines 84-88) applied to the outcome of the
strategy body (the `sync_playwright` block): `ImportError` maps to a fixed
`ParserExecutionError`; any other exception is re-raised as
`ParserExecutionError` with the prefix `Error during Playwright parsing: `
followed by `str(e) or repr(e)`. -/
def playwrightWrapBody (body : Except PyExc ProductData) : Except PyExc ProductData :=
  match body with
  | .ok p => .ok p
  | .error (.importError _) => .error (.executionError pwNotInstalledMsg)
  | .error e => .error (.executionError ("Error during Playwright parsing: " ++ e.strOrRepr))

/-- Python `str.strip()` with no argument: remove leading and trailing
whitespace (embedded at the character-list level; agrees with Python on
ASCII whitespace). -/
def pyStrip (s : String) : String :=
  String.mk
    (((s.data.dropWhile Char.isWhitespace).reverse.dropWhile
      Char.isWhitespace).reverse)

/-- Python `str.lower()` (embedded at the character-list level; agrees with
Python on ASCII letters). -/
def pyLower (s : String) : String :=
  String.mk (s.data.map Char.toLower)

/-- `ParserType` (core/enums.py lines 4-9). -/
inductive ParserType where
  | bs4
  | selenium
  | playwright
deriving Repr, DecidableEq

/-- The `value` of each enum member. -/
def ParserType.value : ParserType → String
  | .bs4 => "bs4"
  | .selenium => "selenium"
  | .playwright => "playwright"

/-- `", ".join(member.value for member in cls)` in declaration order. -/
def allowedParserValues : String := "bs4, selenium, playwright"

/-- `ParserType.from_string` (core/enums.py lines 11-17): the enum is looked
up by `value.lower()`; an unknown value raises `ValueError` whose message
names the offending input and lists the allowed values. -/
def ParserType.from_string (value : String) : Except PyExc ParserType :=
  if pyLower value = "bs4" then .ok .bs4
  else if pyLower value = "selenium" then .ok .selenium
  else if pyLower value = "playwright" then .ok .playwright
  else
    .error (.valueError
      ("Unknown parser type \x27" ++ value ++ "\x27. Allowed values: " ++
        allowedParserValues ++ "."))

/-- The three strategy classes the dispatcher can construct. -/
inductive Strategy where
  | beautifulSoupBrainParser
  | seleniumBrainParser
  | playwrightBrainParser
deriving Repr, DecidableEq

/-- `_PARSER_REGISTRY` (parser_app/factory.py lines 11-15). -/
def PARSER_REGISTRY : ParserType → Option Strategy
  | .bs4 => some .beautifulSoupBrainParser
  | .selenium => some .seleniumBrainParser
  | .playwright => some .playwrightBrainParser

/-- `get_parser` (parser_app/factory.py lines 17-25) applied to a string
identifier: the string is first converted via `ParserType.from_string`
(raising its `ValueError` for unknown identifiers), then looked up in the
registry; a registered class is instantiated, an unregistered enum member
raises `ParserConfigurationError`. -/
def getParser (parser_type : String) : Except PyExc Strategy :=
  match ParserType.from_string parser_type with
  | .error e => .error e
  | .ok t =>
    match PARSER_REGISTRY t with
    | none => .error (.configurationError
        ("Parser \x27" ++ t.value ++ "\x27 is not registered."))
    | some s => .ok s

/-- `_CACHE_CAPACITY` (parsers/utils/cache.py line 19). -/
def CACHE_CAPACITY : Nat := 64

/-- The `OrderedDict` cache state: association list with unique keys,
ordered least-recently-used first (the `OrderedDict` front). -/
abbrev Cache := List (String × String)

/-- `_make_key` (parsers/utils/cache.py lines 24-25): the composite key is
the parser name joined with the stripped, lower-cased query. -/
def make_key (parser_name query : String) : String :=
  parser_name ++ ":" ++ pyLower (pyStrip query)

/-- `OrderedDict` key lookup: the value stored under `k`, if any. -/
def cacheLookup (c : Cache) (k : String) : Option String :=
  (c.find? (fun e => e.1 = k)).map (fun e => e.2)

/-- Removal of the entry stored under `k` (no-op when `k` is absent). -/
def cacheErase (c : Cache) (k : String) : Cache :=
  c.filter (fun e => e.1 ≠ k)

/-- `get_cached_url` (parsers/utils/cache.py lines 28-38): falsy queries
return `None` untouched; a miss returns `None` untouched; a hit returns the
value and promotes the entry to the most-recent end (`move_to_end`). -/
def get_cached_url (c : Cache) (parser_name : String) (query : Option String) :
    Option String × Cache :=
  if truthy query = false then (none, c)
  else
    match cacheLookup c (make_key parser_name (query.getD "")) with
    | none => (none, c)
    | some v =>
      (some v, cacheErase c (make_key parser_name (query.getD "")) ++
        [(make_key parser_name (query.getD ""), v)])

/-- The `while len(_cache) > _CACHE_CAPACITY: _cache.popitem(last=False)`
loop (parsers/utils/cache.py lines 48-49): drop least-recent entries from
the front until the capacity bound holds. -/
def cacheEvict (c : Cache) : Cache :=
  if CACHE_CAPACITY < c.length then cacheEvict (c.drop 1) else c
termination_by c.length
decreasing_by
  simp_all [CACHE_CAPACITY, List.length_drop]
  omega

/-- `set_cached_url` (parsers/utils/cache.py lines 41-49): a falsy query or
URL is a no-op; otherwise `_cache[key] = url` followed by `move_to_end`
re-binds the key at the most-recent end, then the eviction loop trims the
front down to capacity. -/
def set_cached_url (c : Cache) (parser_name : String)
    (query url : Option String) : Cache :=
  if truthy query = false ∨ truthy url = false then c
  else
    cacheEvict (cacheErase c (make_key parser_name (query.getD "")) ++
      [(make_key parser_name (query.getD ""), url.getD "")])

/-- `HOME_URL` (parsers/config.py line 3). -/
def HOME_URL : String := "https://brain.com.ua/"

/-- Attempt to match the regex fragment `-p\d+\.html` at the head of the
character list, returning the remaining characters on success.  `\d+` is
greedy; since `.` is not a digit, maximal-munch digit consumption is exact. -/
def productTokenRest : List Char → Option (List Char)
  | '-' :: 'p' :: rest =>
    if (rest.takeWhile Char.isDigit).isEmpty then none
    else
      match rest.dropWhile Char.isDigit with
      | '.' :: 'h' :: 't' :: 'm' :: 'l' :: rest2 => some rest2
      | _ => none
  | _ => none

/-- Does `p` hold of some suffix of the list?  This is the search ("match
anywhere") closure of an anchored matcher. -/
def anySuffix (p : List Char → Bool) : List Char → Bool
  | [] => p []
  | c :: rest => p (c :: rest) || anySuffix p rest

/-- The list contains a `-p\d+\.html` occurrence somewhere. -/
def containsProductTokenL (cs : List Char) : Bool :=
  anySuffix (fun s => (productTokenRest s).isSome) cs

/-- String form of `containsProductTokenL`. -/
def containsProductToken (s : String) : Bool :=
  containsProductTokenL s.toList

/-- `PRODUCT_URL_PATTERN.search` (parsers/config.py line 4): does the string
contain `-p\d+\.html` followed by end-of-string or `?`? -/
def PRODUCT_URL_PATTERN_search (s : String) : Bool :=
  anySuffix
    (fun cs =>
      match productTokenRest cs with
      | some [] => true
      | some ('?' :: _) => true
      | _ => false)
    s.toList

/-- Is the character one of the two quote characters of the scan regex
character class, `"` or `\x27`? -/
def isQuoteChar (c : Char) : Bool :=
  c = '"' || c = Char.ofNat 39

/-- Attempt to match `href=["']([^"']*-p\d+\.html[^"']*)["']` anchored at the
head of the list, returning the captured group.  Both `[^"']*` runs are
greedy and cannot cross a quote, so the group is exactly the maximal
quote-free run after the opening quote, the match succeeding iff that run is
terminated by a quote and contains `-p\d+\.html`. -/
def hrefScanAt (cs : List Char) : Option (List Char) :=
  match cs with
  | 'h' :: 'r' :: 'e' :: 'f' :: '=' :: q :: rest =>
    if isQuoteChar q then
      if (rest.dropWhile (fun c => !isQuoteChar c)).isEmpty = false &&
          containsProductTokenL (rest.takeWhile (fun c => !isQuoteChar c)) then
        some (rest.takeWhile (fun c => !isQuoteChar c))
      else none
    else none
  | _ => none

/-- `re.search(r"href=[\"\x27]([^\"\x27]*-p\d+\.html[^\"\x27]*)[\"\x27]", html)`
with leftmost-match semantics: try each start position left to right. -/
def scanFirstHrefL : List Char → Option (List Char)
  | [] => none
  | c :: rest =>
    match hrefScanAt (c :: rest) with
    | some run => some run
    | none => scanFirstHrefL rest

/-- String form of the last-resort HTML href scan: the captured group of the
first match, if any. -/
def scanFirstHref (s : String) : Option String :=
  (scanFirstHrefL s.toList).map (fun l => String.mk l)

/-- Modelled subset of `urllib.parse.urljoin(HOME_URL, href)` covering the
reference shapes the resolver extracts from the DOM: absolute `http(s)`
URLs pass through, protocol-relative references gain the base scheme,
root-relative references gain the base origin, and all other relative
references are appended to the base (whose path is `/`); dot-segment
normalisation is not modelled.  In every case `href` is a suffix of the
result. -/
def urljoinHome (href : String) : String :=
  if href = "" then HOME_URL
  else if "http://".data.isPrefixOf href.data ||
      "https://".data.isPrefixOf href.data then href
  else if "//".data.isPrefixOf href.data then "https:" ++ href
  else if "/".data.isPrefixOf href.data then "https://brain.com.ua" ++ href
  else "https://brain.com.ua/" ++ href

/-- Message of the `ParserExecutionError` raised when a resolver exhausts
every candidate-link source. -/
def unresolvedMsg : String :=
  "Unable to resolve product URL from search results."

/-- Oracle environment for one call of the Playwright
`resolve_product_url` (parsers/playwright/resolver.py lines 25-206): the
value each primitive page operation returns at the point the source
consults it, for a fixed query.  Best-effort steps whose results the code
swallows without reading (overlay dismissal, preloader/result waits, input
focus and fill, submit clicks, `show-all` click) act only on the live page,
whose subsequent observations are already arbitrary fields here, so they
contribute no further fields.  Primitive operations whose exceptions the
source does not catch are modelled as returning normally. -/
structure PwEnv where
  /-- Did `page.goto(search_url)` + the load-state wait of the fast path
  succeed?  Any exception there falls through to the full UI path. -/
  fastNavOk : Bool
  /-- Result of `page.eval_on_selector(...)` on the first anchor: `none`
  for an exception or a null attribute. -/
  fastEval : Option String
  /-- Did `anchors.count()` / `get_attribute` of the fast path run without
  raising?  An exception falls through to the full UI path. -/
  fastAnchorsOk : Bool
  /-- `get_attribute("href")` of each fast-path anchor, in DOM order. -/
  fastAnchors : List (Option String)
  /-- Did `page.content()` of the fast path run without raising? -/
  fastHtmlOk : Bool
  /-- The fast-path page HTML (truncated to 200000 characters by the code). -/
  fastHtml : String
  /-- For each of the three step-4 selectors: `none` when the visibility
  wait or the click raised (loop continues), otherwise `page.url` observed
  after the click. -/
  clickNavUrls : List (Option String)
  /-- `page.url` read after the step-4 loop. -/
  urlAfterLoop : String
  /-- `get_attribute("href")` of each final-scan anchor, in DOM order. -/
  finalAnchors : List (Option String)
  /-- The page HTML read by the last-resort scan. -/
  finalHtml : String
deriving Repr

/-- An anchor href becomes a returned candidate when it is truthy and
`PRODUCT_URL_PATTERN.search` succeeds on it; the resolver then returns
`urljoin(HOME_URL, href)`. -/
def hrefCandidate (h : Option String) : Option String :=
  match h with
  | some s => if s ≠ "" && PRODUCT_URL_PATTERN_search s then some (urljoinHome s) else none
  | none => none

/-- The `for idx in range(min(count, n))` anchor loops: the first anchor
whose href is truthy and matches the pattern wins. -/
def firstAnchorCandidate : List (Option String) → Option String
  | [] => none
  | h :: rest =>
    match hrefCandidate h with
    | some u => some u
    | none => firstAnchorCandidate rest

/-- Fast path of the Playwright resolver (lines 26-73): direct search-URL
navigation, then the `eval_on_selector` shortcut, the bounded anchor loop
(first 10 anchors) and the bounded HTML scan (first 200000 characters);
`none` means fall through to the full UI path. -/
def pwFastPath (env : PwEnv) : Option String :=
  if env.fastNavOk = false then none
  else
    match hrefCandidate env.fastEval with
    | some u => some u
    | none =>
      if env.fastAnchorsOk = false then none
      else
        match firstAnchorCandidate (env.fastAnchors.take 10) with
        | some u => some u
        | none =>
          if env.fastHtmlOk = false then none
          else
            match scanFirstHrefL (env.fastHtml.toList.take 200000) with
            | some g => some (urljoinHome (String.mk g))
            | none => none

/-- The step-4 click loop (lines 171-188): a failed wait or click moves to
the next selector; after a successful click the observed `page.url` is
returned only when truthy and pattern-matching, otherwise the loop
continues. -/
def pwClickLoop : List (Option String) → Option String
  | [] => none
  | attempt :: rest =>
    match attempt with
    | some current =>
      if current ≠ "" && PRODUCT_URL_PATTERN_search current then some current
      else pwClickLoop rest
    | none => pwClickLoop rest

/-- Full UI path of the Playwright resolver (lines 75-206): the click loop
over three selectors, the post-loop `page.url` check, the bounded anchor
scan (first 30 anchors) and the last-resort HTML scan; with every source
exhausted, `ParserExecutionError` is raised. -/
def pwFullPath (env : PwEnv) : Except PyExc String :=
  match pwClickLoop (env.clickNavUrls.take 3) with
  | some u => .ok u
  | none =>
    if env.urlAfterLoop ≠ "" && PRODUCT_URL_PATTERN_search env.urlAfterLoop then
      .ok env.urlAfterLoop
    else
      match firstAnchorCandidate (env.finalAnchors.take 30) with
      | some u => .ok u
      | none =>
        match scanFirstHrefL env.finalHtml.toList with
        | some g => .ok (urljoinHome (String.mk g))
        | none => .error (.executionError unresolvedMsg)

/-- `resolve_product_url` of parsers/playwright/resolver.py: fast path
first, full UI path as fallback. -/
def pwResolveProductUrl (env : PwEnv) : Except PyExc String :=
  match pwFastPath env with
  | some u => .ok u
  | none => pwFullPath env

/-- Oracle environment for one call of the Selenium `resolve_product_url`
query branch (parsers/selenium/resolver.py lines 92-245), under the same
conventions as `PwEnv`.  Each step-4 selector attempt records `none` when
`_first_visible_by_css` found no element (loop continues), otherwise the
`get_attribute("href")` result, whether `_safe_click` succeeded and the
`driver.current_url` observed after the click. -/
structure SeEnv where
  /-- `get_attribute("href")` of the fast-path first matching element;
  `none` when the element lookup or attribute read raised. -/
  fastHref : Option String
  /-- The three step-4 selector attempts. -/
  clickSteps : List (Option (Option String × Bool × String))
  /-- `driver.current_url` read after the step-4 loop (`""` when absent). -/
  currentFinal : String
deriving Repr

/-- The trailing href check of a step-4 attempt of the Selenium resolver
(lines 234-235): the recorded href is returned when truthy and
pattern-matching. -/
def seHrefHit : Option String → Option String
  | some h => if h ≠ "" && PRODUCT_URL_PATTERN_search h then some h else none
  | none => none

/-- One step-4 attempt of the Selenium resolver, continued: on a successful
click the observed current URL is returned when truthy and
pattern-matching; in every other case the recorded href is returned via
`seHrefHit`; otherwise the loop continues. -/
def seStepResult : Option (Option String × Bool × String) → Option String
  | none => none
  | some (href, clickOk, current) =>
    if clickOk then
      if current ≠ "" && PRODUCT_URL_PATTERN_search current then some current
      else seHrefHit href
    else seHrefHit href

/-- The Selenium step-4 loop over the three selectors. -/
def seClickLoop : List (Option (Option String × Bool × String)) → Option String
  | [] => none
  | step :: rest =>
    match seStepResult step with
    | some u => some u
    | none => seClickLoop rest

/-- The Selenium query branch after its fast path found no match (lines
212-241): the click loop over the three selectors, then the final
`current_url` check; exhaustion raises `ParserExecutionError` at line 241,
which the stage-tracking handler at lines 242-245 re-raises with the stage
name `open_first_product` prefixed to the message. -/
def seAfterFast (env : SeEnv) : Except PyExc String :=
  match seClickLoop (env.clickSteps.take 3) with
  | some u => .ok u
  | none =>
    if env.currentFinal ≠ "" && PRODUCT_URL_PATTERN_search env.currentFinal then
      .ok env.currentFinal
    else .error (.executionError ("open_first_product: " ++ unresolvedMsg))

/-- The fast search-URL step of the Selenium query branch (lines 94-115):
the fast href is returned raw when truthy and pattern-matching (line 111
returns `href` itself, without `urljoin`); otherwise the flow falls
through to `seAfterFast`. -/
def seQueryBranch (env : SeEnv) : Except PyExc String :=
  match env.fastHref with
  | some h =>
    if h ≠ "" && PRODUCT_URL_PATTERN_search h then .ok h
    else seAfterFast env
  | none => seAfterFast env

/-- `resolve_product_url` of parsers/selenium/resolver.py (lines 84-249): a
truthy query enters the UI flow; otherwise a truthy URL is returned
unchanged and the empty call raises `ParserExecutionError`. -/
def seResolveProductUrl (env : SeEnv) (query url : Option String) :
    Except PyExc String :=
  if truthy query then seQueryBranch env
  else if truthy url = false then
    .error (.executionError missingInputMsg)
  else .ok (url.getD "")

/-- The timeout selection of `run_in_browser_thread`
(parsers/playwright/runtime.py lines 162-170): `raw` is the stripped value
of `PLAYWRIGHT_JOB_TIMEOUT_S` (`""` when unset) and `parsed` the outcome of
Python `float(raw)` (`none` when parsing raises), supplied as an oracle.
An unset variable and a parse failure both yield the 90-second default. -/
def jobTimeoutSeconds (raw : String) (parsed : Option Rat) : Rat :=
  if raw = "" then 90
  else
    match parsed with
    | some v => v
    | none => 90

/-- Observable outcome of the bounded wait on the job future. -/
inductive WaitOutcome where
  /-- `future.result` returned the job's value. -/
  | completed
  /-- `TimeoutError` was raised to the caller. -/
  | raisedTimeout
  /-- The caller is still blocked (unbounded wait on a job that never
  finishes). -/
  | blocked
deriving Repr, DecidableEq

/-- Result of the wait: its outcome, and whether the runtime issued any
cancellation of the in-flight job. -/
structure WaitRun where
  outcome : WaitOutcome
  cancelIssued : Bool
deriving Repr, DecidableEq

/-- The bounded wait of `run_in_browser_thread` (lines 172-178): with a
positive timeout, `future.result(timeout=timeout_s)` returns the job value
when it arrives within `timeout_s` seconds and otherwise raises
`TimeoutError`; with a non-positive timeout the wait is unbounded.
`arrival` is the time at which the job's result becomes available (`none`
when it never does).  The source never calls `future.cancel()` nor tears
down the browsing context on timeout, so `cancelIssued` is `false` on every
path. -/
def futureWait (timeout_s : Rat) (arrival : Option Rat) : WaitRun :=
  if 0 < timeout_s then
    match arrival with
    | some t => if t ≤ timeout_s then ⟨.completed, false⟩ else ⟨.raisedTimeout, false⟩
    | none => ⟨.raisedTimeout, false⟩
  else
    match arrival with
    | some _ => ⟨.completed, false⟩
    | none => ⟨.blocked, false⟩

/-- The module-level globals of parsers/playwright/runtime.py observed by
callers (each field records whether the reference is currently set, i.e.
not `None`). -/
structure RtGlobals where
  playwrightSet : Bool
  browserSet : Bool
  threadIdSet : Bool
  loopSet : Bool
deriving Repr, DecidableEq

/-- Program counter of the singleton worker thread `_thread_main`. -/
inductive RtPc where
  /-- No worker thread is running (before `_start`, or after teardown). -/
  | idle
  /-- Line 39 has run: `_thread_id` is assigned (outside the lock) but the
  publication block at lines 78-83 has not. -/
  | identitySet
  /-- The locked publication block at lines 78-83 has run; the loop is
  serving jobs. -/
  | published
deriving Repr, DecidableEq

/-- A runtime lifecycle state: worker position plus the shared globals. -/
structure RtState where
  pc : RtPc
  g : RtGlobals
deriving Repr, DecidableEq

/-- The all-`None` globals. -/
def rtCleared : RtGlobals := ⟨false, false, false, false⟩

/-- The initial runtime state: no worker, all globals `None`. -/
def rtInit : RtState := ⟨.idle, rtCleared⟩

/-- Atomic transitions of the runtime lifecycle (parsers/playwright/
runtime.py).  Code running inside one `with _lock:` block is a single
step; the bare assignment `_thread_id = threading.get_ident()` at line 39
is its own step since it is not under the lock.  Observers
(`run_in_browser_thread` lines 150-153, `get_browser`, `close_browser`)
read the globals under the lock, i.e. between these steps. -/
inductive RtStep : RtState → RtState → Prop where
  /-- Line 39: the owning thread identity is recorded, outside the lock,
  before the loop and browser exist. -/
  | setThreadId (g : RtGlobals) :
      RtStep ⟨.idle, g⟩ ⟨.identitySet, { g with threadIdSet := true }⟩
  /-- Lines 78-83: `_playwright`, `_browser` and `_loop` are published
  together under the lock. -/
  | publish (g : RtGlobals) :
      RtStep ⟨.identitySet, g⟩
        ⟨.published, { g with playwrightSet := true, browserSet := true, loopSet := true }⟩
  /-- Startup failure (lines 72-76) followed by the `finally` teardown at
  lines 110-114: every global is cleared together under the lock. -/
  | startupFail (g : RtGlobals) :
      RtStep ⟨.identitySet, g⟩ ⟨.idle, rtCleared⟩
  /-- Loop shutdown (after `close_browser` stops the loop) reaching the
  `finally` teardown at lines 110-114: every global is cleared together
  under the lock. -/
  | teardown (g : RtGlobals) :
      RtStep ⟨.published, g⟩ ⟨.idle, rtCleared⟩

/-- A state is observable when the runtime can reach it from process start
through any number of lifecycle steps (including restarts after close). -/
def RtReachable (s : RtState) : Prop :=
  Relation.ReflTransGen RtStep rtInit s

/-! Theorems. -/

/-- C1: whenever both the query and the url argument of a strategy's `parse`
are empty or absent, the call raises `ParserConfigurationError` and the
inner strategy is never invoked — the result is the same for every possible
inner strategy and `innerInvoked` is `false`. -/
theorem claim_C1
    (inner : Option String → Option String → Except PyExc ProductData)
    (query url : Option String)
    (hq : truthy query = false) (hu : truthy url = false) :
    BaseBrainParser.parse inner query url =
      ⟨.error (.configurationError missingInputMsg), false⟩ := by
  unfold BaseBrainParser.parse
  rw [if_pos ⟨hq, hu⟩]

/-- Witness for C1 at `query = none`, `url = none`. -/
theorem claim_C1_witness :
    truthy none = false ∧
    BaseBrainParser.parse (fun _ _ => .ok {}) none none =
      ⟨.error (.configurationError missingInputMsg), false⟩ :=
  ⟨rfl, claim_C1 (fun _ _ => .ok {}) none none rfl rfl⟩

/-- C2: every normal return of `parse` carries a non-empty product code, and
when the inner strategy returns normally with an empty product code, `parse`
raises `ParserExecutionError` nonetheless. -/
theorem claim_C2 :
    (∀ inner query url p,
        (BaseBrainParser.parse inner query url).result = .ok p →
        p.product_code ≠ "") ∧
    (∀ inner query url p,
        (truthy query = true ∨ truthy url = true) →
        inner query url = .ok p → p.product_code = "" →
        (BaseBrainParser.parse inner query url).result =
          .error (.executionError missingCodeMsg)) := by
  constructor
  · intro inner query url p h
    unfold BaseBrainParser.parse at h
    by_cases hqu : truthy query = false ∧ truthy url = false
    · rw [if_pos hqu] at h
      simp at h
    · rw [if_neg hqu] at h
      cases hinner : inner query url with
      | error e => rw [hinner] at h; cases e <;> simp at h
      | ok prod =>
        rw [hinner] at h
        by_cases hc : prod.product_code = ""
        · simp [hc] at h
        · simp [hc] at h
          rw [← h]
          exact hc
  · intro inner query url p hqu hinner hcode
    have hne : ¬(truthy query = false ∧ truthy url = false) := by
      rcases hqu with h | h <;> simp [h]
    unfold BaseBrainParser.parse
    rw [if_neg hne, hinner]
    simp [hcode]

/-- Witness for C2: both conjuncts applied at concrete inputs — an inner
strategy returning code "123", and one returning an empty code. -/
theorem claim_C2_witness :
    ((BaseBrainParser.parse (fun _ _ => .ok { product_code := "123" })
        (some "q") none).result = .ok { product_code := "123" } →
      ({ product_code := "123" } : ProductData).product_code ≠ "") ∧
    (BaseBrainParser.parse (fun _ _ => .ok {}) (some "q") none).result =
      .error (.executionError missingCodeMsg) :=
  ⟨claim_C2.1 (fun _ _ => .ok { product_code := "123" }) (some "q") none
      { product_code := "123" },
    claim_C2.2 (fun _ _ => .ok {}) (some "q") none {} (Or.inl rfl) rfl rfl⟩

/-- C3: at the strategy boundary a `ParserConfigurationError` raised by the
inner strategy propagates unchanged, while any other exception is wrapped
into exactly one `ParserExecutionError` whose message is the original
`str(exc)`; composed with the Playwright strategy's internal translation
ladder, a raw exception in the strategy body surfaces as a single
`ParserExecutionError` whose message carries the original message after the
`Error during Playwright parsing: ` context prefix. -/
theorem claim_C3 :
    (∀ inner query url m,
        (truthy query = true ∨ truthy url = true) →
        inner query url = .error (.configurationError m) →
        (BaseBrainParser.parse inner query url).result =
          .error (.configurationError m)) ∧
    (∀ inner query url e,
        (truthy query = true ∨ truthy url = true) →
        inner query url = .error e →
        (∀ m, e ≠ .configurationError m) →
        (BaseBrainParser.parse inner query url).result =
          .error (.executionError e.str)) ∧
    (∀ query url e,
        (truthy query = true ∨ truthy url = true) →
        (∀ m, e ≠ .importError m) →
        (BaseBrainParser.parse (fun _ _ => playwrightWrapBody (.error e))
            query url).result =
          .error (.executionError
            ("Error during Playwright parsing: " ++ e.strOrRepr))) := by
  refine ⟨?_, ?_, ?_⟩
  · intro inner query url m hqu hinner
    have hne : ¬(truthy query = false ∧ truthy url = false) := by
      rcases hqu with h | h <;> simp [h]
    unfold BaseBrainParser.parse
    rw [if_neg hne, hinner]
  · intro inner query url e hqu hinner hnc
    have hne : ¬(truthy query = false ∧ truthy url = false) := by
      rcases hqu with h | h <;> simp [h]
    unfold BaseBrainParser.parse
    rw [if_neg hne, hinner]
    cases e with
    | configurationError m => exact absurd rfl (hnc m)
    | executionError m => rfl
    | valueError m => rfl
    | timeoutError m => rfl
    | importError m => rfl
    | otherError m => rfl
  · intro query url e hqu hni
    have hne : ¬(truthy query = false ∧ truthy url = false) := by
      rcases hqu with h | h <;> simp [h]
    unfold BaseBrainParser.parse
    rw [if_neg hne]
    cases e with
    | importError m => exact absurd rfl (hni m)
    | configurationError m => rfl
    | executionError m => rfl
    | valueError m => rfl
    | timeoutError m => rfl
    | otherError m => rfl

/-- Witness for C3 at concrete inputs: a propagated configuration error, a
wrapped `ValueError`, and a Playwright body failure. -/
theorem claim_C3_witness :
    (BaseBrainParser.parse (fun _ _ => .error (.configurationError "bad"))
        (some "q") none).result = .error (.configurationError "bad") ∧
    (BaseBrainParser.parse (fun _ _ => .error (.valueError "boom"))
        (some "q") none).result = .error (.executionError "boom") ∧
    (BaseBrainParser.parse
        (fun _ _ => playwrightWrapBody (.error (.timeoutError "slow page")))
        (some "q") none).result =
      .error (.executionError "Error during Playwright parsing: slow page") :=
  ⟨claim_C3.1 (fun _ _ => .error (.configurationError "bad")) (some "q") none
      "bad" (Or.inl rfl) rfl,
    claim_C3.2.1 (fun _ _ => .error (.valueError "boom")) (some "q") none
      (.valueError "boom") (Or.inl rfl) rfl (fun m h => by cases h),
    claim_C3.2.2 (some "q") none (.timeoutError "slow page") (Or.inl rfl)
      (fun m h => by cases h)⟩

/-- C10: with a non-empty query and no url, the static BeautifulSoup
strategy always fails — its `_parse` raises before any fetch, and the
boundary surfaces it as `ParserExecutionError`, for every fetch oracle. -/
theorem claim_C10
    (fetch : String → Except PyExc ProductData)
    (query url : Option String)
    (hq : truthy query = true) (hu : truthy url = false) :
    (BaseBrainParser.parse (beautifulSoupParseInner fetch) query url).result =
      .error (.executionError bsUrlRequiredMsg) := by
  have hne : ¬(truthy query = false ∧ truthy url = false) := by simp [hq]
  unfold BaseBrainParser.parse
  rw [if_neg hne]
  unfold beautifulSoupParseInner
  rw [if_pos hu]
  rfl

/-- Witness for C10 at `query = some "iphone"`, `url = none`. -/
theorem claim_C10_witness :
    truthy (some "iphone") = true ∧
    (BaseBrainParser.parse (beautifulSoupParseInner (fun u => .ok { source_url := u }))
        (some "iphone") none).result = .error (.executionError bsUrlRequiredMsg) :=
  ⟨rfl, claim_C10 (fun u => .ok { source_url := u }) (some "iphone") none rfl rfl⟩

/-- Unfolding of `cacheLookup` over a cons cell. -/
theorem cacheLookup_cons (e : String × String) (rest : Cache) (k : String) :
    cacheLookup (e :: rest) k =
      if e.1 = k then some e.2 else cacheLookup rest k := by
  by_cases h : e.1 = k
  · simp [cacheLookup, List.find?_cons_of_pos, h]
  · simp [cacheLookup, List.find?_cons_of_neg, h]

/-- A lookup misses exactly when no entry carries the key. -/
theorem cacheLookup_eq_none_iff (c : Cache) (k : String) :
    cacheLookup c k = none ↔ ∀ e ∈ c, e.1 ≠ k := by
  simp [cacheLookup, List.find?_eq_none]

/-- Erasing a key clears its lookup. -/
theorem cacheLookup_erase_self (c : Cache) (k : String) :
    cacheLookup (cacheErase c k) k = none := by
  rw [cacheLookup_eq_none_iff]
  intro e he
  have := List.of_mem_filter he
  simpa using this

/-- Erasing one key leaves every other key's lookup unchanged. -/
theorem cacheLookup_erase_ne (c : Cache) (k k' : String) (h : k' ≠ k) :
    cacheLookup (cacheErase c k) k' = cacheLookup c k' := by
  induction c with
  | nil => rfl
  | cons e rest ih =>
    by_cases he : e.1 = k
    · have : cacheErase (e :: rest) k = cacheErase rest k := by
        simp [cacheErase, he]
      rw [this, ih, cacheLookup_cons, if_neg (by rw [he]; exact fun hk => h hk.symm)]
    · have : cacheErase (e :: rest) k = e :: cacheErase rest k := by
        simp [cacheErase, he]
      rw [this, cacheLookup_cons, cacheLookup_cons, ih]

/-- A key absent from the front part of an append is looked up in the back. -/
theorem cacheLookup_append_of_none (l₁ l₂ : Cache) (k : String)
    (h : cacheLookup l₁ k = none) :
    cacheLookup (l₁ ++ l₂) k = cacheLookup l₂ k := by
  induction l₁ with
  | nil => rfl
  | cons e rest ih =>
    rw [cacheLookup_cons] at h
    by_cases he : e.1 = k
    · rw [if_pos he] at h; cases h
    · rw [if_neg he] at h
      rw [List.cons_append, cacheLookup_cons, if_neg he, ih h]

/-- A key found in the front part of an append keeps its value. -/
theorem cacheLookup_append_of_some (l₁ l₂ : Cache) (k : String) (v : String)
    (h : cacheLookup l₁ k = some v) :
    cacheLookup (l₁ ++ l₂) k = some v := by
  induction l₁ with
  | nil => cases h
  | cons e rest ih =>
    rw [cacheLookup_cons] at h
    by_cases he : e.1 = k
    · rw [if_pos he] at h
      rw [List.cons_append, cacheLookup_cons, if_pos he, h]
    · rw [if_neg he] at h
      rw [List.cons_append, cacheLookup_cons, if_neg he, ih h]

/-- Appending (`move_to_end`) a freshly erased key makes it found with the
appended value. -/
theorem cacheLookup_erase_concat (c : Cache) (k v : String) :
    cacheLookup (cacheErase c k ++ [(k, v)]) k = some v := by
  rw [cacheLookup_append_of_none _ _ _ (cacheLookup_erase_self c k)]
  simp [cacheLookup]

/-- A key nobody holds is erased into the identity. -/
theorem cacheErase_of_none (c : Cache) (k : String)
    (h : cacheLookup c k = none) : cacheErase c k = c := by
  rw [cacheLookup_eq_none_iff] at h
  exact List.filter_eq_self.mpr (fun e he => by simpa using h e he)

/-- The eviction loop is the identity within capacity. -/
theorem cacheEvict_of_le (c : Cache) (h : c.length ≤ CACHE_CAPACITY) :
    cacheEvict c = c := by
  unfold cacheEvict
  rw [if_neg (by omega)]

/-- For inputs at most one over capacity — every state `set_cached_url`
produces from an in-capacity cache — the eviction loop is a single
conditional front drop. -/
theorem cacheEvict_small (c : Cache) (h : c.length ≤ CACHE_CAPACITY + 1) :
    cacheEvict c = if CACHE_CAPACITY < c.length then c.drop 1 else c := by
  by_cases hlt : CACHE_CAPACITY < c.length
  · rw [if_pos hlt]
    unfold cacheEvict
    rw [if_pos hlt]
    exact cacheEvict_of_le _ (by rw [List.length_drop]; omega)
  · rw [if_neg hlt]
    exact cacheEvict_of_le _ (by omega)

/-- The last element of a concat. -/
theorem cache_getLast_concat (l : Cache) (a : String × String) :
    (l ++ [a]).getLast? = some a := by
  simp

/-- Unfolding of `set_cached_url` on truthy inputs. -/
theorem set_cached_url_eq (c : Cache) (s q u : String)
    (hq : q ≠ "") (hu : u ≠ "") :
    set_cached_url c s (some q) (some u) =
      cacheEvict (cacheErase c (make_key s q) ++ [(make_key s q, u)]) := by
  unfold set_cached_url
  rw [if_neg (by simp [truthy, hq, hu])]
  rfl

/-- Unfolding of `get_cached_url` on a hit. -/
theorem get_cached_url_hit (c : Cache) (s q v : String) (hq : q ≠ "")
    (h : cacheLookup c (make_key s q) = some v) :
    get_cached_url c s (some q) =
      (some v, cacheErase c (make_key s q) ++ [(make_key s q, v)]) := by
  unfold get_cached_url
  rw [if_neg (by simp [truthy, hq])]
  simp only [Option.getD_some]
  rw [h]

/-- The cache length bound all `set_cached_url` intermediate states obey
when the starting cache is within capacity. -/
theorem cacheErase_concat_length (c : Cache) (k u : String)
    (hlen : c.length ≤ CACHE_CAPACITY) :
    (cacheErase c k ++ [(k, u)]).length ≤ CACHE_CAPACITY + 1 := by
  have := List.length_filter_le (fun e => decide (e.1 ≠ k)) c
  simp only [cacheErase, List.length_append, List.length_cons, List.length_nil]
  omega

/-- Entries surviving `cacheErase c k` never carry `k`. -/
theorem cacheErase_keys (c : Cache) (k : String) :
    ∀ e ∈ cacheErase c k, e.1 ≠ k := by
  intro e he
  simpa using List.of_mem_filter he

/-- A found key names a stored entry. -/
theorem cacheLookup_some_mem (c : Cache) (k v : String)
    (h : cacheLookup c k = some v) : ∃ e ∈ c, e.1 = k := by
  unfold cacheLookup at h
  obtain ⟨e, hfind, -⟩ := Option.map_eq_some'.mp h
  have hp := List.find?_some hfind
  exact ⟨e, List.mem_of_find?_eq_some hfind, by simpa using hp⟩

/-- C4: the query cache is a strict LRU of fixed capacity 64 keyed by
`strategy:normalized-query`, stated over caches within the capacity
invariant:
1. the capacity constant is 64;
2. a value just inserted for `(s, q)` is returned by `get (s, q)`;
3. a `get` hit promotes the entry to the most-recently-used end while
   changing no key's value;
4. a `set` leaves the written entry at the most-recently-used end;
5. `set` keeps the cache within capacity;
6. inserting a fresh key into a full cache evicts exactly the entry at the
   least-recently-used front (which, by clause 3, reflects use order, not
   insertion order);
7. an entry survives a `set` of a different key — keeping its value — in
   every case except when that `set` overflowed a full cache and the entry
   was the least-recently-used one. -/
theorem claim_C4 :
    CACHE_CAPACITY = 64 ∧
    (∀ (c : Cache) (s q u : String), q ≠ "" → u ≠ "" →
      c.length ≤ CACHE_CAPACITY →
      (get_cached_url (set_cached_url c s (some q) (some u)) s (some q)).1 =
        some u) ∧
    (∀ (c : Cache) (s q v : String), q ≠ "" →
      cacheLookup c (make_key s q) = some v →
      (get_cached_url c s (some q)).2 =
          cacheErase c (make_key s q) ++ [(make_key s q, v)] ∧
        ∀ k', cacheLookup (get_cached_url c s (some q)).2 k' =
          cacheLookup c k') ∧
    (∀ (c : Cache) (s q u : String), q ≠ "" → u ≠ "" →
      c.length ≤ CACHE_CAPACITY →
      (set_cached_url c s (some q) (some u)).getLast? =
        some (make_key s q, u)) ∧
    (∀ (c : Cache) (s : String) (q u : Option String),
      c.length ≤ CACHE_CAPACITY →
      (set_cached_url c s q u).length ≤ CACHE_CAPACITY) ∧
    (∀ (c : Cache) (s q u : String), q ≠ "" → u ≠ "" →
      c.length = CACHE_CAPACITY →
      cacheLookup c (make_key s q) = none →
      set_cached_url c s (some q) (some u) =
        c.drop 1 ++ [(make_key s q, u)]) ∧
    (∀ (c : Cache) (s' q' u' k u : String), q' ≠ "" → u' ≠ "" →
      c.length ≤ CACHE_CAPACITY →
      cacheLookup c k = some u →
      make_key s' q' ≠ k →
      cacheLookup (set_cached_url c s' (some q') (some u')) k = some u ∨
        (c.length = CACHE_CAPACITY ∧
          cacheLookup c (make_key s' q') = none ∧
          c.head?.map Prod.fst = some k)) := by
  refine ⟨rfl, ?_, ?_, ?_, ?_, ?_, ?_⟩
  · -- clause 2: get-after-set
    intro c s q u hq hu hlen
    rw [set_cached_url_eq c s q u hq hu,
      cacheEvict_small _ (cacheErase_concat_length c (make_key s q) u hlen)]
    by_cases hover : CACHE_CAPACITY <
        (cacheErase c (make_key s q) ++ [(make_key s q, u)]).length
    · rw [if_pos hover]
      have h1 : 1 ≤ (cacheErase c (make_key s q)).length := by
        simp only [List.length_append, List.length_cons, List.length_nil,
          CACHE_CAPACITY] at hover
        omega
      rw [List.drop_append_of_le_length h1]
      have hfind : cacheLookup
          ((cacheErase c (make_key s q)).drop 1 ++ [(make_key s q, u)])
          (make_key s q) = some u := by
        rw [cacheLookup_append_of_none]
        · simp [cacheLookup]
        · rw [cacheLookup_eq_none_iff]
          exact fun e he =>
            cacheErase_keys c (make_key s q) e (List.mem_of_mem_drop he)
      rw [get_cached_url_hit _ s q u hq hfind]
    · rw [if_neg hover,
        get_cached_url_hit _ s q u hq (cacheLookup_erase_concat c (make_key s q) u)]
  · -- clause 3: get promotes on a hit, preserving the mapping
    intro c s q v hq hfound
    rw [get_cached_url_hit c s q v hq hfound]
    refine ⟨rfl, ?_⟩
    intro k'
    show cacheLookup (cacheErase c (make_key s q) ++ [(make_key s q, v)]) k' =
      cacheLookup c k'
    by_cases hkk : k' = make_key s q
    · subst hkk
      rw [cacheLookup_erase_concat, hfound]
    · cases hv : cacheLookup c k' with
      | some w =>
        exact cacheLookup_append_of_some _ _ _ _
          (by rw [cacheLookup_erase_ne c _ k' hkk, hv])
      | none =>
        rw [cacheLookup_append_of_none _ _ _
            (by rw [cacheLookup_erase_ne c _ k' hkk, hv]),
          cacheLookup_cons, if_neg (fun h => hkk h.symm)]
        rfl
  · -- clause 4: set promotes
    intro c s q u hq hu hlen
    rw [set_cached_url_eq c s q u hq hu,
      cacheEvict_small _ (cacheErase_concat_length c (make_key s q) u hlen)]
    by_cases hover : CACHE_CAPACITY <
        (cacheErase c (make_key s q) ++ [(make_key s q, u)]).length
    · rw [if_pos hover]
      have h1 : 1 ≤ (cacheErase c (make_key s q)).length := by
        simp only [List.length_append, List.length_cons, List.length_nil,
          CACHE_CAPACITY] at hover
        omega
      rw [List.drop_append_of_le_length h1, cache_getLast_concat]
    · rw [if_neg hover, cache_getLast_concat]
  · -- clause 5: capacity bound
    intro c s q u hlen
    unfold set_cached_url
    by_cases hno : truthy q = false ∨ truthy u = false
    · rw [if_pos hno]
      exact hlen
    · rw [if_neg hno]
      have hsmall :=
        cacheErase_concat_length c (make_key s (q.getD "")) (u.getD "") hlen
      rw [cacheEvict_small _ hsmall]
      simp only [CACHE_CAPACITY] at hsmall hlen ⊢
      by_cases hover : 64 < (cacheErase c (make_key s (q.getD "")) ++
          [(make_key s (q.getD ""), u.getD "")]).length
      · rw [if_pos hover, List.length_drop]
        omega
      · rw [if_neg hover]
        omega
  · -- clause 6: strict LRU eviction
    intro c s q u hq hu hlen hfresh
    rw [set_cached_url_eq c s q u hq hu, cacheErase_of_none _ _ hfresh]
    simp only [CACHE_CAPACITY] at hlen
    rw [cacheEvict_small _ (by
        simp only [List.length_append, List.length_cons, List.length_nil,
          CACHE_CAPACITY]
        omega),
      if_pos (by
        simp only [List.length_append, List.length_cons, List.length_nil,
          CACHE_CAPACITY]
        omega),
      List.drop_append_of_le_length (by omega)]
  · -- clause 7: persistence until LRU eviction
    intro c s' q' u' k u hq hu hlen hfound hne
    have hkne : k ≠ make_key s' q' := fun h => hne h.symm
    rw [set_cached_url_eq c s' q' u' hq hu]
    cases hv : cacheLookup c (make_key s' q') with
    | some w =>
      left
      have hshrink : (cacheErase c (make_key s' q')).length < c.length := by
        rw [cacheErase, List.length_filter_lt_length_iff_exists]
        obtain ⟨e, hec, hek⟩ := cacheLookup_some_mem c _ w hv
        exact ⟨e, hec, by simp [hek]⟩
      rw [cacheEvict_of_le _ (by
        simp only [List.length_append, List.length_cons, List.length_nil]
        omega)]
      exact cacheLookup_append_of_some _ _ _ _
        (by rw [cacheLookup_erase_ne c _ k hkne, hfound])
    | none =>
      rw [cacheErase_of_none _ _ hv]
      by_cases hfull : c.length = CACHE_CAPACITY
      · simp only [CACHE_CAPACITY] at hfull
        rw [cacheEvict_small _ (by
            simp only [List.length_append, List.length_cons, List.length_nil,
              CACHE_CAPACITY]
            omega),
          if_pos (by
            simp only [List.length_append, List.length_cons, List.length_nil,
              CACHE_CAPACITY]
            omega),
          List.drop_append_of_le_length (by omega)]
        cases c with
        | nil => simp at hfull
        | cons e0 rest =>
          by_cases hk0 : e0.1 = k
          · right
            refine ⟨by simp only [CACHE_CAPACITY]; exact hfull, rfl, by simp [hk0]⟩
          · left
            rw [cacheLookup_cons, if_neg hk0] at hfound
            simp only [List.drop_succ_cons, List.drop_zero]
            exact cacheLookup_append_of_some _ _ _ _ hfound
      · left
        rw [cacheEvict_of_le _ (by
          simp only [List.length_append, List.length_cons, List.length_nil]
          omega)]
        exact cacheLookup_append_of_some _ _ _ _ hfound


/-- Witness for C4: the eviction clause applied to a full 64-entry cache
holding keys "0".."63" (evicting exactly the front entry), and the
get-after-set clause applied to the empty cache. -/
theorem claim_C4_witness :
    ((List.range 64).map (fun i => (toString i, "v")) : Cache).length =
        CACHE_CAPACITY ∧
    cacheLookup ((List.range 64).map (fun i => (toString i, "v")))
        (make_key "p" "q") = none ∧
    set_cached_url ((List.range 64).map (fun i => (toString i, "v")))
        "p" (some "q") (some "u") =
      ((List.range 64).map (fun i => (toString i, "v"))).drop 1 ++
        [(make_key "p" "q", "u")] ∧
    (get_cached_url (set_cached_url [] "p" (some "q") (some "u"))
        "p" (some "q")).1 = some "u" :=
  ⟨rfl, by decide,
    claim_C4.2.2.2.2.2.1 ((List.range 64).map (fun i => (toString i, "v")))
      "p" "q" "u" (by decide) (by decide) rfl (by decide),
    claim_C4.2.1 [] "p" "q" "u" (by decide) (by decide) (by decide)⟩

/-- C9: `get` on an unknown key answers "absent" and leaves the cache
untouched, and every cache operation is a no-op on an empty or absent
query (or, for `set`, an empty or absent URL). -/
theorem claim_C9 :
    (∀ (c : Cache) (s q : String),
      cacheLookup c (make_key s q) = none →
      get_cached_url c s (some q) = (none, c)) ∧
    (∀ (c : Cache) (s : String), get_cached_url c s none = (none, c)) ∧
    (∀ (c : Cache) (s : String), get_cached_url c s (some "") = (none, c)) ∧
    (∀ (c : Cache) (s : String) (u : Option String),
      set_cached_url c s none u = c) ∧
    (∀ (c : Cache) (s : String) (u : Option String),
      set_cached_url c s (some "") u = c) ∧
    (∀ (c : Cache) (s : String) (q : Option String),
      set_cached_url c s q none = c) ∧
    (∀ (c : Cache) (s : String) (q : Option String),
      set_cached_url c s q (some "") = c) := by
  refine ⟨?_, ?_, ?_, ?_, ?_, ?_, ?_⟩
  · intro c s q h
    unfold get_cached_url
    by_cases hq : q = ""
    · rw [if_pos (by simp [truthy, hq])]
    · rw [if_neg (by simp [truthy, hq])]
      simp only [Option.getD_some]
      rw [h]
  · intro c s
    rfl
  · intro c s
    rfl
  · intro c s u
    unfold set_cached_url
    rw [if_pos (Or.inl (show truthy none = false from rfl))]
  · intro c s u
    unfold set_cached_url
    rw [if_pos (Or.inl (show truthy (some "") = false by rfl))]
  · intro c s q
    unfold set_cached_url
    rw [if_pos (Or.inr (show truthy none = false from rfl))]
  · intro c s q
    unfold set_cached_url
    rw [if_pos (Or.inr (show truthy (some "") = false by rfl))]

/-- Witness for C9: an unknown-key `get` on a one-entry cache and a no-op
`set` with an absent query. -/
theorem claim_C9_witness :
    cacheLookup [("p:other", "u")] (make_key "p" "q") = none ∧
    get_cached_url [("p:other", "u")] "p" (some "q") =
      (none, [("p:other", "u")]) ∧
    set_cached_url [("p:other", "u")] "p" none (some "u2") =
      [("p:other", "u")] :=
  ⟨by decide,
    claim_C9.1 [("p:other", "u")] "p" "q" (by decide),
    claim_C9.2.2.2.1 [("p:other", "u")] "p" (some "u2")⟩

/-- Bool-level test for the exception class the claim about the dispatcher
names. -/
def isConfigurationError : PyExc → Bool
  | .configurationError _ => true
  | _ => false

/-- Counterexample to C8: dispatching the unknown identifier "chrome" fails
with `ValueError` — a `ValueError` raised by `ParserType.from_string`
(core/enums.py line 17), not the `ParserConfigurationError` the claim
requires (the `ParserConfigurationError` branch of the dispatcher is
unreachable because every enum member is registered). -/
theorem claim_C8_counterexample :
    getParser "chrome" =
      .error (.valueError
        "Unknown parser type \x27chrome\x27. Allowed values: bs4, selenium, playwright.") ∧
    (match getParser "chrome" with
      | .error e => isConfigurationError e
      | .ok _ => true) = false := by
  exact ⟨rfl, rfl⟩

/-- C8 as amended: an identifier that is none of the three enumerated values
(after lower-casing) makes the dispatcher fail with a `ValueError` — not a
`ConfigurationError` — whose message lists the allowed identifier values,
while each of the three enumerated values yields the corresponding
constructed strategy. -/
theorem claim_C8 :
    (∀ s : String,
      pyLower s ≠ "bs4" → pyLower s ≠ "selenium" → pyLower s ≠ "playwright" →
      getParser s =
        .error (.valueError
          ("Unknown parser type \x27" ++ s ++ "\x27. Allowed values: " ++
            allowedParserValues ++ "."))) ∧
    getParser "bs4" = .ok .beautifulSoupBrainParser ∧
    getParser "selenium" = .ok .seleniumBrainParser ∧
    getParser "playwright" = .ok .playwrightBrainParser := by
  refine ⟨?_, rfl, rfl, rfl⟩
  intro s h1 h2 h3
  unfold getParser ParserType.from_string
  rw [if_neg h1, if_neg h2, if_neg h3]

/-- Witness for C8 at the unknown identifier "scrapy". -/
theorem claim_C8_witness :
    pyLower "scrapy" ≠ "bs4" ∧
    getParser "scrapy" =
      .error (.valueError
        ("Unknown parser type \x27scrapy\x27. Allowed values: " ++
          allowedParserValues ++ ".")) :=
  ⟨by decide,
    claim_C8.1 "scrapy" (by decide) (by decide) (by decide)⟩

/-- C6: when the job-timeout variable is unset (empty after stripping) or
unparsable, the configured timeout is the 90-second default; and for any
positive configured timeout, a job whose result does not arrive within it
makes the calling thread raise `TimeoutError` while the runtime issues no
cancellation of the in-flight job. -/
theorem claim_C6 :
    (∀ (raw : String) (parsed : Option Rat),
      raw = "" ∨ parsed = none → jobTimeoutSeconds raw parsed = 90) ∧
    (∀ (timeout_s : Rat) (arrival : Option Rat),
      0 < timeout_s →
      (arrival = none ∨ ∀ t, arrival = some t → timeout_s < t) →
      futureWait timeout_s arrival = ⟨.raisedTimeout, false⟩) := by
  constructor
  · intro raw parsed h
    unfold jobTimeoutSeconds
    by_cases hr : raw = ""
    · rw [if_pos hr]
    · rcases h with h | h
      · exact absurd h hr
      · rw [if_neg hr, h]
  · intro timeout_s arrival hT harr
    unfold futureWait
    rw [if_pos hT]
    cases arrival with
    | none => rfl
    | some t =>
      rcases harr with h | h
      · simp at h
      · show (if t ≤ timeout_s then
            ({ outcome := .completed, cancelIssued := false } : WaitRun)
          else { outcome := .raisedTimeout, cancelIssued := false }) =
          { outcome := .raisedTimeout, cancelIssued := false }
        rw [if_neg (not_le.mpr (h t rfl))]

/-- Witness for C6: the unset variable yields 90 seconds, and a job that
never completes under the 90-second default raises `TimeoutError` with no
cancellation issued. -/
theorem claim_C6_witness :
    jobTimeoutSeconds "" none = 90 ∧
    futureWait 90 none = ⟨.raisedTimeout, false⟩ :=
  ⟨claim_C6.1 "" none (Or.inl rfl),
    claim_C6.2 90 none (by norm_num) (Or.inl rfl)⟩

/-- Counterexample to C7: the runtime state reached right after line 39 of
`_thread_main` — one lifecycle step from the initial state — is observable
under the lock and has the owning thread identity set while the loop and
browser references are still absent, contradicting the claimed joint
atomicity of all three. -/
theorem claim_C7_counterexample :
    RtReachable ⟨.identitySet, ⟨false, false, true, false⟩⟩ ∧
    (⟨false, false, true, false⟩ : RtGlobals).threadIdSet = true ∧
    (⟨false, false, true, false⟩ : RtGlobals).loopSet = false ∧
    (⟨false, false, true, false⟩ : RtGlobals).browserSet = false :=
  ⟨Relation.ReflTransGen.single (RtStep.setThreadId rtCleared),
    rfl, rfl, rfl⟩

/-- C7 as amended: the loop, browser and playwright references are
published together and torn down together — every observable runtime state
has the three flags equal — but the owning thread identity is recorded
before them, outside the lock, so its flag is not covered by the joint
atomicity. -/
theorem claim_C7 (s : RtState) (h : RtReachable s) :
    s.g.loopSet = s.g.browserSet ∧ s.g.browserSet = s.g.playwrightSet := by
  unfold RtReachable at h
  induction h with
  | refl => exact ⟨rfl, rfl⟩
  | tail hab hbc ih =>
    cases hbc with
    | setThreadId g => exact ih
    | publish g => exact ⟨rfl, rfl⟩
    | startupFail g => exact ⟨rfl, rfl⟩
    | teardown g => exact ⟨rfl, rfl⟩

/-- Witness for C7 at the initial runtime state. -/
theorem claim_C7_witness :
    rtInit.g.loopSet = rtInit.g.browserSet ∧
    rtInit.g.browserSet = rtInit.g.playwrightSet :=
  claim_C7 rtInit Relation.ReflTransGen.refl

/-- Right projection of a boolean conjunction test. -/
theorem and_right_true {a b : Bool} (h : (a && b) = true) : b = true := by
  simp only [Bool.and_eq_true] at h
  exact h.2

/-- Search-closure monotonicity: a pointwise-stronger anchored matcher
yields a stronger search. -/
theorem anySuffix_mono (p q : List Char → Bool)
    (himp : ∀ cs, p cs = true → q cs = true) :
    ∀ cs, anySuffix p cs = true → anySuffix q cs = true := by
  intro cs
  induction cs with
  | nil =>
    intro h
    unfold anySuffix at h ⊢
    exact himp [] h
  | cons c rest ih =>
    intro h
    unfold anySuffix at h ⊢
    simp only [Bool.or_eq_true] at h ⊢
    rcases h with h1 | h2
    · exact Or.inl (himp _ h1)
    · exact Or.inr (ih h2)

/-- A match of the full product-URL pattern contains the bare token. -/
theorem pattern_imp_token (s : String)
    (h : PRODUCT_URL_PATTERN_search s = true) :
    containsProductToken s = true := by
  unfold PRODUCT_URL_PATTERN_search at h
  unfold containsProductToken containsProductTokenL
  refine anySuffix_mono _ _ ?_ s.toList h
  intro cs hcs
  cases hv : productTokenRest cs with
  | none => rw [hv] at hcs; simp at hcs
  | some r => simp [hv]

/-- A search succeeding on a suffix succeeds on the whole list. -/
theorem anySuffix_append (p : List Char → Bool) (a b : List Char)
    (h : anySuffix p b = true) : anySuffix p (a ++ b) = true := by
  induction a with
  | nil => exact h
  | cons c rest ih =>
    rw [List.cons_append]
    unfold anySuffix
    simp only [Bool.or_eq_true]
    exact Or.inr ih

/-- Prefixing a string keeps the token search succeeding. -/
theorem token_append_left (p s : String)
    (h : containsProductToken s = true) :
    containsProductToken (p ++ s) = true := by
  unfold containsProductToken containsProductTokenL at h ⊢
  rw [show (p ++ s).toList = p.toList ++ s.toList from rfl]
  exact anySuffix_append _ _ _ h

/-- Prefixing a string keeps the full-pattern search succeeding. -/
theorem search_append_left (p s : String)
    (h : PRODUCT_URL_PATTERN_search s = true) :
    PRODUCT_URL_PATTERN_search (p ++ s) = true := by
  unfold PRODUCT_URL_PATTERN_search at h ⊢
  rw [show (p ++ s).toList = p.toList ++ s.toList from rfl]
  exact anySuffix_append _ _ _ h

/-- `urljoin` against the home base keeps the token search succeeding:
every branch returns `href` itself or a prefix prepended to it. -/
theorem urljoin_token (href : String)
    (h : containsProductToken href = true) :
    containsProductToken (urljoinHome href) = true := by
  unfold urljoinHome
  split_ifs with h0 h1 h2 h3
  · rw [h0] at h
    exact absurd h (by decide)
  · exact h
  · exact token_append_left _ _ h
  · exact token_append_left _ _ h
  · exact token_append_left _ _ h

/-- `urljoin` against the home base keeps the full-pattern search
succeeding. -/
theorem urljoin_search (href : String)
    (h : PRODUCT_URL_PATTERN_search href = true) :
    PRODUCT_URL_PATTERN_search (urljoinHome href) = true := by
  unfold urljoinHome
  split_ifs with h0 h1 h2 h3
  · rw [h0] at h
    exact absurd h (by decide)
  · exact h
  · exact search_append_left _ _ h
  · exact search_append_left _ _ h
  · exact search_append_left _ _ h

/-- The captured group of an anchored scan match contains the token. -/
theorem hrefScanAt_token (cs run : List Char)
    (h : hrefScanAt cs = some run) : containsProductTokenL run = true := by
  unfold hrefScanAt at h
  split at h
  · split at h
    · split at h
      · rename_i hcond
        injection h with h'
        rw [← h']
        exact and_right_true hcond
      · cases h
    · cases h
  · cases h

/-- The captured group of the leftmost scan match contains the token. -/
theorem scanFirstHrefL_token (cs : List Char) :
    ∀ run, scanFirstHrefL cs = some run → containsProductTokenL run = true := by
  induction cs with
  | nil => intro run h; cases h
  | cons c rest ih =>
    intro run h
    unfold scanFirstHrefL at h
    cases hm : hrefScanAt (c :: rest) with
    | some r =>
      rw [hm] at h
      injection h with h'
      rw [← h']
      exact hrefScanAt_token _ _ hm
    | none =>
      rw [hm] at h
      exact ih run h

/-- A candidate produced by the anchor loops matches the full pattern. -/
theorem hrefCandidate_search (h : Option String) (u : String)
    (hc : hrefCandidate h = some u) : PRODUCT_URL_PATTERN_search u = true := by
  cases h with
  | none => simp [hrefCandidate] at hc
  | some s =>
    simp only [hrefCandidate] at hc
    split at hc
    · rename_i hcond
      injection hc with h'
      rw [← h']
      exact urljoin_search s (and_right_true hcond)
    · cases hc

/-- The first matching anchor of a loop matches the full pattern. -/
theorem firstAnchorCandidate_search (l : List (Option String)) :
    ∀ u, firstAnchorCandidate l = some u →
      PRODUCT_URL_PATTERN_search u = true := by
  induction l with
  | nil => intro u h; cases h
  | cons a rest ih =>
    intro u h
    unfold firstAnchorCandidate at h
    cases hc : hrefCandidate a with
    | some v =>
      rw [hc] at h
      injection h with h'
      rw [← h']
      exact hrefCandidate_search a v hc
    | none =>
      rw [hc] at h
      exact ih u h

/-- A URL returned by the click loop matches the full pattern. -/
theorem pwClickLoop_search (l : List (Option String)) :
    ∀ u, pwClickLoop l = some u → PRODUCT_URL_PATTERN_search u = true := by
  induction l with
  | nil => intro u h; cases h
  | cons a rest ih =>
    intro u h
    cases a with
    | some current =>
      simp only [pwClickLoop] at h
      split at h
      · rename_i hcond
        injection h with h'
        rw [← h']
        exact and_right_true hcond
      · exact ih u h
    | none =>
      simp only [pwClickLoop] at h
      exact ih u h

/-- Every URL the Playwright fast path returns contains the token. -/
theorem pwFastPath_token (env : PwEnv) (u : String)
    (h : pwFastPath env = some u) : containsProductToken u = true := by
  unfold pwFastPath at h
  by_cases h1 : env.fastNavOk = false
  · rw [if_pos h1] at h; cases h
  · rw [if_neg h1] at h
    cases he : hrefCandidate env.fastEval with
    | some u0 =>
      rw [he] at h
      injection h with h'
      rw [← h']
      exact pattern_imp_token _ (hrefCandidate_search _ _ he)
    | none =>
      rw [he] at h
      by_cases h2 : env.fastAnchorsOk = false
      · rw [if_pos h2] at h; cases h
      · rw [if_neg h2] at h
        cases ha : firstAnchorCandidate (env.fastAnchors.take 10) with
        | some u0 =>
          rw [ha] at h
          injection h with h'
          rw [← h']
          exact pattern_imp_token _ (firstAnchorCandidate_search _ _ ha)
        | none =>
          rw [ha] at h
          by_cases h3 : env.fastHtmlOk = false
          · rw [if_pos h3] at h; cases h
          · rw [if_neg h3] at h
            cases hs : scanFirstHrefL (env.fastHtml.toList.take 200000) with
            | some g =>
              rw [hs] at h
              injection h with h'
              rw [← h']
              exact urljoin_token _ (scanFirstHrefL_token _ _ hs)
            | none =>
              rw [hs] at h
              cases h

/-- The Playwright full path: a normal return contains the token, a raised
error is the resolver's `ParserExecutionError`. -/
theorem pwFullPath_cases (env : PwEnv) :
    (∀ u, pwFullPath env = .ok u → containsProductToken u = true) ∧
    (∀ e, pwFullPath env = .error e → e = .executionError unresolvedMsg) := by
  unfold pwFullPath
  cases hc : pwClickLoop (env.clickNavUrls.take 3) with
  | some u0 =>
    refine ⟨?_, ?_⟩
    · intro u h
      injection h with h'
      rw [← h']
      exact pattern_imp_token _ (pwClickLoop_search _ _ hc)
    · intro e h
      cases h
  | none =>
    by_cases hurl : (env.urlAfterLoop ≠ "" &&
        PRODUCT_URL_PATTERN_search env.urlAfterLoop) = true
    · rw [if_pos hurl]
      refine ⟨?_, ?_⟩
      · intro u h
        injection h with h'
        rw [← h']
        exact pattern_imp_token _ (and_right_true hurl)
      · intro e h
        cases h
    · rw [if_neg hurl]
      cases ha : firstAnchorCandidate (env.finalAnchors.take 30) with
      | some u0 =>
        refine ⟨?_, ?_⟩
        · intro u h
          injection h with h'
          rw [← h']
          exact pattern_imp_token _ (firstAnchorCandidate_search _ _ ha)
        · intro e h
          cases h
      | none =>
        cases hs : scanFirstHrefL env.finalHtml.toList with
        | some g =>
          refine ⟨?_, ?_⟩
          · intro u h
            injection h with h'
            rw [← h']
            exact urljoin_token _ (scanFirstHrefL_token _ _ hs)
          · intro e h
            cases h
        | none =>
          refine ⟨?_, ?_⟩
          · intro u h
            cases h
          · intro e h
            injection h with h'
            rw [← h']

/-- A Selenium href hit matches the full pattern. -/
theorem seHrefHit_search (h : Option String) (u : String)
    (hc : seHrefHit h = some u) : PRODUCT_URL_PATTERN_search u = true := by
  cases h with
  | none => simp [seHrefHit] at hc
  | some s =>
    simp only [seHrefHit] at hc
    split at hc
    · rename_i hcond
      injection hc with h'
      rw [← h']
      exact and_right_true hcond
    · cases hc

/-- A URL produced by one Selenium step-4 attempt matches the full
pattern. -/
theorem seStepResult_search (step : Option (Option String × Bool × String))
    (u : String) (h : seStepResult step = some u) :
    PRODUCT_URL_PATTERN_search u = true := by
  cases step with
  | none => simp [seStepResult] at h
  | some t =>
    obtain ⟨href, clickOk, current⟩ := t
    simp only [seStepResult] at h
    split at h
    · split at h
      · rename_i hcond
        injection h with h'
        rw [← h']
        exact and_right_true hcond
      · exact seHrefHit_search _ _ h
    · exact seHrefHit_search _ _ h

/-- A URL returned by the Selenium click loop matches the full pattern. -/
theorem seClickLoop_search (l : List (Option (Option String × Bool × String))) :
    ∀ u, seClickLoop l = some u → PRODUCT_URL_PATTERN_search u = true := by
  induction l with
  | nil => intro u h; cases h
  | cons a rest ih =>
    intro u h
    unfold seClickLoop at h
    cases hs : seStepResult a with
    | some v =>
      rw [hs] at h
      injection h with h'
      rw [← h']
      exact seStepResult_search a v hs
    | none =>
      rw [hs] at h
      exact ih u h

/-- The Selenium flow after the fast path: a normal return matches the
pattern, a raised error is the stage-prefixed `ParserExecutionError`. -/
theorem seAfterFast_cases (env : SeEnv) :
    (∀ u, seAfterFast env = .ok u → PRODUCT_URL_PATTERN_search u = true) ∧
    (∀ e, seAfterFast env = .error e →
      e = .executionError ("open_first_product: " ++ unresolvedMsg)) := by
  unfold seAfterFast
  cases hc : seClickLoop (env.clickSteps.take 3) with
  | some u0 =>
    refine ⟨?_, ?_⟩
    · intro u h
      injection h with h'
      rw [← h']
      exact seClickLoop_search _ _ hc
    · intro e h
      cases h
  | none =>
    by_cases hurl : (env.currentFinal ≠ "" &&
        PRODUCT_URL_PATTERN_search env.currentFinal) = true
    · rw [if_pos hurl]
      refine ⟨?_, ?_⟩
      · intro u h
        injection h with h'
        rw [← h']
        exact and_right_true hurl
      · intro e h
        cases h
    · rw [if_neg hurl]
      refine ⟨?_, ?_⟩
      · intro u h
        cases h
      · intro e h
        injection h with h'
        rw [← h']

/-- The whole Selenium query branch: a normal return matches the pattern, a
raised error is the stage-prefixed `ParserExecutionError`. -/
theorem seQueryBranch_cases (env : SeEnv) :
    (∀ u, seQueryBranch env = .ok u → PRODUCT_URL_PATTERN_search u = true) ∧
    (∀ e, seQueryBranch env = .error e →
      e = .executionError ("open_first_product: " ++ unresolvedMsg)) := by
  cases hf : env.fastHref with
  | some h0 =>
    have he : seQueryBranch env =
        (if (h0 ≠ "" && PRODUCT_URL_PATTERN_search h0) = true then .ok h0
          else seAfterFast env) := by
      unfold seQueryBranch
      rw [hf]
    rw [he]
    split
    · rename_i hcond
      refine ⟨?_, ?_⟩
      · intro u h
        injection h with h'
        rw [← h']
        exact and_right_true hcond
      · intro e h
        cases h
    · exact seAfterFast_cases env
  | none =>
    have he : seQueryBranch env = seAfterFast env := by
      unfold seQueryBranch
      rw [hf]
    rw [he]
    exact seAfterFast_cases env

/-- Counterexample to C5: a full-path execution in which the only candidate
link comes from the last-resort HTML scan, whose regex
`href=["\x27]([^"\x27]*-p\d+\.html[^"\x27]*)["\x27]` accepts trailing
characters after `.html`.  The resolver returns the joined URL of an anchor
with a fragment, and that URL does not match `PRODUCT_URL_PATTERN` —
contradicting "the returned URL matches the product-URL pattern". -/
theorem claim_C5_counterexample :
    pwResolveProductUrl
      { fastNavOk := false, fastEval := none, fastAnchorsOk := true,
        fastAnchors := [], fastHtmlOk := true, fastHtml := "",
        clickNavUrls := [none, none, none], urlAfterLoop := "",
        finalAnchors := [],
        finalHtml := "<a href=\"case-p123.html#frag\">x</a>" } =
      .ok "https://brain.com.ua/case-p123.html#frag" ∧
    PRODUCT_URL_PATTERN_search "https://brain.com.ua/case-p123.html#frag" =
      false :=
  ⟨rfl, by decide⟩

/-- C5 as amended: every URL the Playwright resolver returns contains a
product-link token `-p<digits>.html` — on the pattern-guarded paths it
matches the full anchored pattern, but the last-resort HTML scan only
guarantees the bare token (trailing characters such as a fragment may
follow) — and an exhausted Playwright resolver raises
`ParserExecutionError`; the Selenium resolver's query branch returns only
URLs matching the full pattern and raises the stage-prefixed
`ParserExecutionError` when it finds no candidate. -/
theorem claim_C5 :
    (∀ (env : PwEnv) (u : String),
      pwResolveProductUrl env = .ok u → containsProductToken u = true) ∧
    (∀ (env : PwEnv) (e : PyExc),
      pwResolveProductUrl env = .error e →
      e = .executionError unresolvedMsg) ∧
    (∀ (env : SeEnv) (query url : Option String) (u : String),
      truthy query = true →
      seResolveProductUrl env query url = .ok u →
      PRODUCT_URL_PATTERN_search u = true) ∧
    (∀ (env : SeEnv) (query url : Option String) (e : PyExc),
      truthy query = true →
      seResolveProductUrl env query url = .error e →
      e = .executionError ("open_first_product: " ++ unresolvedMsg)) := by
  refine ⟨?_, ?_, ?_, ?_⟩
  · intro env u h
    unfold pwResolveProductUrl at h
    cases hf : pwFastPath env with
    | some v =>
      rw [hf] at h
      injection h with h'
      rw [← h']
      exact pwFastPath_token env v hf
    | none =>
      rw [hf] at h
      exact (pwFullPath_cases env).1 u h
  · intro env e h
    unfold pwResolveProductUrl at h
    cases hf : pwFastPath env with
    | some v =>
      rw [hf] at h
      cases h
    | none =>
      rw [hf] at h
      exact (pwFullPath_cases env).2 e h
  · intro env query url u hq h
    unfold seResolveProductUrl at h
    rw [if_pos hq] at h
    exact (seQueryBranch_cases env).1 u h
  · intro env query url e hq h
    unfold seResolveProductUrl at h
    rw [if_pos hq] at h
    exact (seQueryBranch_cases env).2 e h

/-- Witness for C5: a fast-path Playwright resolution through the guarded
`eval_on_selector` shortcut, and a Selenium fast-path hit. -/
theorem claim_C5_witness :
    pwResolveProductUrl
      { fastNavOk := true, fastEval := some "/x-p1.html",
        fastAnchorsOk := true, fastAnchors := [], fastHtmlOk := true,
        fastHtml := "", clickNavUrls := [], urlAfterLoop := "",
        finalAnchors := [], finalHtml := "" } =
      .ok "https://brain.com.ua/x-p1.html" ∧
    containsProductToken "https://brain.com.ua/x-p1.html" = true ∧
    PRODUCT_URL_PATTERN_search "https://brain.com.ua/x-p9.html" = true :=
  ⟨rfl,
    claim_C5.1
      { fastNavOk := true, fastEval := some "/x-p1.html",
        fastAnchorsOk := true, fastAnchors := [], fastHtmlOk := true,
        fastHtml := "", clickNavUrls := [], urlAfterLoop := "",
        finalAnchors := [], finalHtml := "" }
      "https://brain.com.ua/x-p1.html" rfl,
    claim_C5.2.2.1 ⟨some "https://brain.com.ua/x-p9.html", [], ""⟩
      (some "q") none "https://brain.com.ua/x-p9.html" rfl rfl⟩

end Spec2Proof
